import Mathlib

/-!
Verification of the FSDP (blockchain-backed command channel) core against its
specification.  The Python sources are shallowly embedded: every class becomes
a structure, every method a pure function on explicit state, and every
mutation of shared objects is made visible as explicit state passing.  SHA-256
digests are modelled as an injective constructor applied to the hashed fields,
so that collision-freedom of the hash becomes constructor injectivity.
Timestamps (Python floats produced by `time.time()`) are modelled as integers
or naturals; they are opaque inputs, never computed with, except in the
session-age comparison where integer subtraction mirrors float subtraction.
-/

/-! ## Blockchain core (`src/fsdp/blockchain/chain.py`) -/

/-- A transaction dictionary as built by `FSDPProtocol.send_message` and
stored in the pending pool.  The `block_index` key is absent (`none`) until
`get_transactions_for_node` annotates the transaction in place. -/
structure Tx where
  ty : String
  from_ : String
  to_ : String
  data : String
  timestamp : Nat
  message_id : String
  block_index : Option Nat := none
deriving DecidableEq, Repr

/-- The `data` dictionary of a block: the genesis block holds
`{'message': ...}` (no `'transactions'` key), every mined block holds
`{'transactions': [...]}`. -/
inductive BlockData where
  | plain (message : String)
  | txs (transactions : List Tx)
deriving DecidableEq, Repr

/-- Hash values.  `raw` embeds literal strings (the genesis `previous_hash`
is the string `"0"`); `sha256` models the SHA-256 digest of the canonical
JSON serialization of the five hashed block fields.  Modelling the digest as
a constructor makes the hash injective on its preimage, which is the
collision-freedom assumption the specification relies on. -/
inductive HashVal where
  | raw (s : String)
  | sha256 (index : Nat) (timestamp : Nat) (data : BlockData)
      (previous_hash : HashVal) (validator : String)
deriving DecidableEq, Repr

/-- `Block` from `chain.py`: the five constructor fields plus the stored
`hash`, which `__init__` computes once from the other fields. -/
structure Block where
  index : Nat
  timestamp : Nat
  data : BlockData
  previous_hash : HashVal
  validator : String
  hash : HashVal
deriving DecidableEq, Repr

/-- `Block.calculate_hash`: SHA-256 of the JSON serialization (stable key
order) of the five fields other than the stored hash. -/
def Block.calculate_hash (b : Block) : HashVal :=
  .sha256 b.index b.timestamp b.data b.previous_hash b.validator

/-- `Block.__init__`: stores the five fields and computes the hash once. -/
def Block.init (index timestamp : Nat) (data : BlockData)
    (previous_hash : HashVal) (validator : String) : Block :=
  { index := index, timestamp := timestamp, data := data,
    previous_hash := previous_hash, validator := validator,
    hash := .sha256 index timestamp data previous_hash validator }

/-- The genesis block created by `_create_genesis_block` (its timestamp is
an opaque clock reading, passed in explicitly). -/
def genesis_block (t : Nat) : Block :=
  Block.init 0 t (.plain "FSDP Genesis Block") (.raw "0") "genesis"

/-- `blockOk v prev cur` is the body of the `is_chain_valid` loop for one
block: stored hash matches the recomputed hash, `previous_hash` links to the
predecessor, and the validator is authorized or the genesis sentinel. -/
def blockOk (validators : List String) (prev cur : Block) : Bool :=
  cur.hash == cur.calculate_hash &&
  cur.previous_hash == prev.hash &&
  (validators.contains cur.validator || cur.validator == "genesis")

/-- `FSDPBlockchain.is_chain_valid`: runs `blockOk` over every consecutive
pair `(chain[i-1], chain[i])` for `i ≥ 1`; the Python early `return False`
is equivalent to this conjunction because the loop body is pure. -/
def is_chain_valid (validators : List String) (chain : List Block) : Bool :=
  (chain.zip chain.tail).all fun p => blockOk validators p.1 p.2

/-- The in-place annotation `tx['block_index'] = block.index` performed on a
transaction whose `to` field matches the queried node. -/
def annotate_tx (node : String) (idx : Nat) (t : Tx) : Tx :=
  if t.to_ == node then { t with block_index := some idx } else t

/-- One block's share of the `get_transactions_for_node` loop.  Because
`create_block` stores the pending-transaction dictionaries themselves in the
block (`self.pending_transactions.copy()` is a shallow copy), the in-place
annotation mutates the block's stored data; the first component is the block
as it is left behind, the second the list of matching (annotated)
transactions in iteration order. -/
def Block.deliver (node : String) (b : Block) : Block × List Tx :=
  match b.data with
  | .plain _ => (b, [])
  | .txs ts =>
      let ts' := ts.map (annotate_tx node b.index)
      ({ b with data := .txs ts' }, ts'.filter fun t => t.to_ == node)

/-- The `for block in self.chain[since_block:]` loop over a block suffix:
returns the mutated blocks and the concatenated matching transactions. -/
def scan_blocks (node : String) : List Block → List Block × List Tx
  | [] => ([], [])
  | b :: bs =>
      let p := Block.deliver node b
      let q := scan_blocks node bs
      (p.1 :: q.1, p.2 ++ q.2)

/-- `FSDPBlockchain.get_transactions_for_node`: scans `chain[since_block:]`,
collects transactions whose `to` equals `node_id`, annotating each with its
block's index in place.  Returns the chain as the call leaves it together
with the returned list. -/
def get_transactions_for_node (chain : List Block) (node : String)
    (since_block : Nat) : List Block × List Tx :=
  let p := scan_blocks node (chain.drop since_block)
  (chain.take since_block ++ p.1, p.2)

/-- The mutable state of one `FSDPBlockchain` instance. -/
structure FSDPBlockchain where
  chain : List Block
  pending_transactions : List Tx
  node_id : String
  is_validator : Bool
  validators : List String
deriving Repr

/-- `FSDPBlockchain.create_block`: only a node that is flagged as validator
and listed in the authority set may seal a block; an empty pool yields no
block; otherwise the pending pool is sealed into a block linked to the last
block's hash, appended, and the pool cleared.  The Python `self.chain[-1]`
on an empty chain would raise; the chain always holds the genesis block, and
the `none` branch mirrors the call failing to produce a block. -/
def create_block (st : FSDPBlockchain) (now : Nat) :
    FSDPBlockchain × Option Block :=
  if !st.is_validator || !st.validators.contains st.node_id then (st, none)
  else if st.pending_transactions.isEmpty then (st, none)
  else
    match st.chain.getLast? with
    | none => (st, none)
    | some previous_block =>
        let new_block := Block.init st.chain.length now
          (.txs st.pending_transactions) previous_block.hash st.node_id
        ({ st with chain := st.chain ++ [new_block],
                   pending_transactions := [] }, some new_block)

/-- The keys of a remote block dictionary that `sync_chain` reads (the wire
shape also carries a stored `hash`, which `sync_chain` never reads because
`Block.__init__` recomputes it). -/
structure BlockWire where
  index : Nat
  timestamp : Nat
  data : BlockData
  previous_hash : HashVal
  validator : String
  hash : HashVal
deriving DecidableEq, Repr

/-- Rebuilding the candidate chain inside `sync_chain`: each wire block is
passed through `Block.__init__`, which recomputes its hash. -/
def rebuild_chain (chain_data : List BlockWire) : List Block :=
  chain_data.map fun d =>
    Block.init d.index d.timestamp d.data d.previous_hash d.validator

/-- `FSDPBlockchain.sync_chain`: rebuilds the candidate and replaces the
local chain iff the candidate is strictly longer; returns the resulting
chain and the boolean result.  No validity check is performed. -/
def sync_chain (chain : List Block) (chain_data : List BlockWire) :
    List Block × Bool :=
  let new_chain := rebuild_chain chain_data
  if chain.length < new_chain.length then (new_chain, true) else (chain, false)

/-! ## Protocol listener (`src/fsdp/protocol/fsdp_protocol.py`) -/

/-- The `last_processed_block` update performed by `_listen_blockchain`:
for each returned transaction carrying a `block_index`, the counter advances
to the maximum index observed. -/
def observed_last (last : Nat) (txs : List Tx) : Nat :=
  txs.foldl (fun acc t => match t.block_index with
    | some i => max acc i
    | none => acc) last

/-- A chain is position-indexed when every block's stored `index` equals its
position in the list; chains built by `_create_genesis_block` and
`create_block` have this shape. -/
def chain_indexed (chain : List Block) : Prop :=
  ∀ (j : Nat) (h : j < chain.length), (chain.get ⟨j, h⟩).index = j

/-! ## File transfer engine (`src/fsdp/protocol/file_transfer.py`)

Byte strings are modelled as `List Nat` (one entry per byte) and the file
system visible to the engine as an association list from path to contents.
Base64 transport encoding is a bijection on byte strings and is elided: the
embedded `receive_chunk` takes the already-decoded bytes. -/

/-- CHUNK_SIZE = 4 * 1024 * 1024 (4 MiB). -/
def CHUNK_SIZE : Nat := 4 * 1024 * 1024

/-- SHA-256 over a byte string, modelled as an injective constructor. -/
inductive ByteSha where
  | mk (data : List Nat)
deriving DecidableEq, Repr

/-- `calculate_chunk_hash` / `calculate_file_hash`: SHA-256 of the bytes. -/
def calculate_chunk_hash (d : List Nat) : ByteSha := .mk d

/-- `TransferStatus` enum from `file_transfer.py`. -/
inductive TransferStatus where
  | pending | in_progress | completed | failed | verifying
deriving DecidableEq, Repr

/-- `ChunkInfo` dataclass. -/
structure ChunkInfo where
  chunk_index : Nat
  chunk_hash : ByteSha
  chunk_size : Nat
  is_verified : Bool := false
deriving DecidableEq, Repr

/-- `FileTransferInfo` dataclass; `chunks` is the insertion-ordered dict
`chunk_index -> ChunkInfo`. -/
structure FileTransferInfo where
  transfer_id : String
  file_name : String
  file_path : String
  file_size : Nat
  total_chunks : Nat
  chunks : List (Nat × ChunkInfo)
  status : TransferStatus
  created_at : Nat
  completed_at : Option Nat := none
  file_hash : Option ByteSha := none
  direction : String := "upload"
  session_id : Option String := none
deriving DecidableEq, Repr

/-- `FileTransferInfo.get_progress`: percentage of verified chunks; a
zero-chunk transfer reports `0.0`.  The Python float is modelled as `Rat`. -/
def FileTransferInfo.get_progress (t : FileTransferInfo) : Rat :=
  if t.total_chunks = 0 then 0
  else
    let verified_chunks := (t.chunks.filter fun p => p.2.is_verified).length
    ((verified_chunks : Rat) / (t.total_chunks : Rat)) * 100

/-- `FileTransferInfo.is_complete`: `all(c.is_verified ...)` over the chunk
dict values (vacuously true when the dict is empty). -/
def FileTransferInfo.is_complete (t : FileTransferInfo) : Bool :=
  t.chunks.all fun p => p.2.is_verified

/-- Python-dict assignment on an association list: overwrite in place if the
key exists, append otherwise (insertion order preserved, as in `dict`). -/
def dictSet {β : Type} (k : String) (v : β) :
    List (String × β) → List (String × β)
  | [] => [(k, v)]
  | (k', v') :: rest =>
      if k' == k then (k, v) :: rest else (k', v') :: dictSet k v rest

/-- Same dict assignment for `Nat` keys. -/
def dictSetN {β : Type} (k : Nat) (v : β) :
    List (Nat × β) → List (Nat × β)
  | [] => [(k, v)]
  | (k', v') :: rest =>
      if k' == k then (k, v) :: rest else (k', v') :: dictSetN k v rest

/-- The in-memory state of a `FileTransferManager` (the `protocol` handle
and the logger carry no state the claims touch; progress callbacks and the
completion notification are side channels with no effect on this state
beyond what `_complete_transfer` records). -/
structure FileTransferManager where
  transfers : List (String × FileTransferInfo)
deriving DecidableEq, Repr

/-- A file system fragment: path to byte contents. -/
def Files : Type := List (String × List Nat)

/-- `_complete_transfer`: marks the transfer completed and stamps the
completion time (the notification message it then emits does not change the
manager's state). -/
def complete_transfer (st : FileTransferManager) (transfer_id : String)
    (now : Nat) : FileTransferManager :=
  match st.transfers.lookup transfer_id with
  | none => st
  | some info =>
      let info' := { info with status := .completed, completed_at := some now }
      { st with transfers := dictSet transfer_id info' st.transfers }

/-- `verify_chunk`: if the transfer and chunk exist and the recorded chunk
hash equals the presented one, marks the chunk verified (and completes the
transfer when every chunk is verified); returns the updated state and the
boolean result. -/
def verify_chunk (st : FileTransferManager) (transfer_id : String)
    (chunk_index : Nat) (chunk_hash : ByteSha) (now : Nat) :
    FileTransferManager × Bool :=
  match st.transfers.lookup transfer_id with
  | none => (st, false)
  | some info =>
      match info.chunks.lookup chunk_index with
      | none => (st, false)
      | some chunk_info =>
          if chunk_info.chunk_hash == chunk_hash then
            let chunk_info' := { chunk_info with is_verified := true }
            let info' :=
              { info with
                chunks := dictSetN chunk_index chunk_info' info.chunks }
            let st' := { st with
              transfers := dictSet transfer_id info' st.transfers }
            if info'.is_complete then
              (complete_transfer st' transfer_id now, true)
            else (st', true)
          else (st, false)

/-- The write performed by `receive_chunk`: the file is opened with mode
`'wb'` when `chunk_index == 0` (truncating) and `'ab'` otherwise.  In append
mode the `f.seek(chunk_index * CHUNK_SIZE)` call has no effect on where the
bytes land: POSIX append-mode writes always go to the end of the file.  A
missing file is created empty by either mode. -/
def file_write_chunk (fs : Files) (path : String) (chunk_index : Nat)
    (data : List Nat) : Files :=
  let old := (fs.lookup path).getD []
  let contents := if 0 < chunk_index then old ++ data else data
  dictSet path contents fs

/-- `receive_chunk`: recomputes the SHA-256 of the received bytes; on
mismatch returns `false` touching neither the file system nor the manager;
on match writes the bytes (see `file_write_chunk`), then, when the transfer
is known, runs `verify_chunk`, and returns `true`. -/
def receive_chunk (st : FileTransferManager) (fs : Files)
    (transfer_id : String) (chunk_index : Nat) (chunk_data : List Nat)
    (chunk_hash : ByteSha) (output_path : String) (now : Nat) :
    FileTransferManager × Files × Bool :=
  let calculated_hash := calculate_chunk_hash chunk_data
  if calculated_hash != chunk_hash then (st, fs, false)
  else
    let fs' := file_write_chunk fs output_path chunk_index chunk_data
    let st' :=
      if (st.transfers.lookup transfer_id).isSome then
        (verify_chunk st transfer_id chunk_index chunk_hash now).1
      else st
    (st', fs', true)

/-- `prepare_upload`: fails (returns no transfer) when the source file does
not exist; otherwise records size, ceiling-division chunk count, whole-file
hash and a per-chunk hash/size plan, stores the transfer in `pending` state
and returns it. -/
def prepare_upload (st : FileTransferManager) (fs : Files)
    (file_path transfer_id session_id : String) (now : Nat) :
    FileTransferManager × Option FileTransferInfo :=
  match fs.lookup file_path with
  | none => (st, none)
  | some contents =>
      let file_size := contents.length
      let total_chunks := (file_size + CHUNK_SIZE - 1) / CHUNK_SIZE
      let file_hash := calculate_chunk_hash contents
      let chunks := (List.range total_chunks).map fun i =>
        let chunk_data := (contents.drop (i * CHUNK_SIZE)).take CHUNK_SIZE
        (i, { chunk_index := i,
              chunk_hash := calculate_chunk_hash chunk_data,
              chunk_size := chunk_data.length,
              is_verified := false : ChunkInfo })
      let info : FileTransferInfo :=
        { transfer_id := transfer_id, file_name := file_path,
          file_path := file_path, file_size := file_size,
          total_chunks := total_chunks, chunks := chunks,
          status := .pending, created_at := now,
          file_hash := some file_hash, direction := "upload",
          session_id := some session_id }
      ({ st with transfers := dictSet transfer_id info st.transfers },
       some info)

/-! ## Session manager (`src/fsdp/protocol/session_manager.py`)

`SessionManager` guards its state with a *non-reentrant* `threading.Lock`.
Several methods call other lock-taking methods while already holding the
lock; in Python that is a deterministic self-deadlock of the calling thread,
so the lock must be part of the sequential semantics.  The embedding carries
a `lock_held` flag; entering a `with self.lock:` region while the flag is
set yields the `deadlock` outcome (the call never returns).  The blockchain
methods never nest lock acquisitions, so their lock is invisible to
sequential semantics and is elided there. -/

/-- `TerminalState` from `session_manager.py`. -/
structure TerminalState where
  terminal_id : String
  session_id : String
  created_at : Int
  is_active : Bool := true
  command_history : List String := []
  output_buffer : List String := []
  current_directory : String
  environment_vars : List (String × String) := []
  process_id : Option Nat := none
deriving DecidableEq, Repr

/-- `SessionState` from `session_manager.py`; timestamps are `time.time()`
floats, modelled as integers so the age subtraction in
`cleanup_old_sessions` keeps Python semantics. -/
structure SessionState where
  session_id : String
  admin_id : String
  target_id : String
  created_at : Int
  last_active : Int
  reconnect_count : Nat := 0
  is_connected : Bool := true
  terminals : List (String × TerminalState) := []
deriving DecidableEq, Repr

/-- The state of a `SessionManager`: the in-memory session dict, the
persisted on-disk records (`storage_dir`), and whether the manager's
`threading.Lock` is currently held by the executing call. -/
structure SessionManager where
  sessions : List (String × SessionState)
  storage : List (String × SessionState)
  lock_held : Bool := false
deriving DecidableEq, Repr

/-- The outcome of calling a lock-taking method: the method either returns
(with the new state) or deadlocks forever on the non-reentrant lock. -/
inductive LockOutcome (α : Type) where
  | ok (a : α)
  | deadlock
deriving DecidableEq, Repr

/-- Entering `with self.lock:`: deadlocks if the executing call already
holds the lock, otherwise acquires it. -/
def sm_acquire (st : SessionManager) : LockOutcome SessionManager :=
  if st.lock_held then .deadlock else .ok { st with lock_held := true }

/-- Leaving the `with self.lock:` region. -/
def sm_release (st : SessionManager) : SessionManager :=
  { st with lock_held := false }

/-- `_save_session`: writes the session's current state to disk (no lock of
its own). -/
def save_session (st : SessionManager) (session_id : String) :
    SessionManager :=
  match st.sessions.lookup session_id with
  | none => st
  | some s => { st with storage := dictSet session_id s st.storage }

/-- Deleting a key from a Python dict. -/
def dictDel {β : Type} (k : String) (d : List (String × β)) :
    List (String × β) :=
  d.filter fun p => p.1 != k

/-- `close_terminal`: takes the lock, then (if present) marks the terminal
inactive and removes it from the session, persisting the session. -/
def close_terminal (st : SessionManager) (session_id terminal_id : String) :
    LockOutcome SessionManager :=
  match sm_acquire st with
  | .deadlock => .deadlock
  | .ok st =>
      match st.sessions.lookup session_id with
      | none => .ok (sm_release st)
      | some s =>
          match s.terminals.lookup terminal_id with
          | none => .ok (sm_release st)
          | some _ =>
              let s' := { s with
                terminals := dictDel terminal_id s.terminals }
              let st := { st with
                sessions := dictSet session_id s' st.sessions }
              .ok (sm_release (save_session st session_id))

/-- `delete_session`: takes the lock, then closes every terminal of the
session through `close_terminal` — which itself takes the same
non-reentrant lock, so the call deadlocks whenever the session has at least
one terminal — and finally removes the session from memory and disk. -/
def delete_session (st : SessionManager) (session_id : String) :
    LockOutcome SessionManager :=
  match sm_acquire st with
  | .deadlock => .deadlock
  | .ok st =>
      match st.sessions.lookup session_id with
      | none => .ok (sm_release st)
      | some s =>
          let rec loop (st : SessionManager) :
              List String → LockOutcome SessionManager
            | [] => .ok st
            | tid :: tids =>
                match close_terminal st session_id tid with
                | .deadlock => .deadlock
                | .ok st => loop st tids
          match loop st (s.terminals.map fun p => p.1) with
          | .deadlock => .deadlock
          | .ok st =>
              let st := { st with
                sessions := dictDel session_id st.sessions,
                storage := dictDel session_id st.storage }
              .ok (sm_release st)

/-- `cleanup_old_sessions`: takes the lock, selects the sessions that are
disconnected and idle longer than `max_age_hours`, then deletes each through
`delete_session` — which takes the same non-reentrant lock, so the call
deadlocks whenever the selection is non-empty. -/
def cleanup_old_sessions (st : SessionManager) (current_time : Int)
    (max_age_hours : Int := 24) : LockOutcome SessionManager :=
  match sm_acquire st with
  | .deadlock => .deadlock
  | .ok st =>
      let max_age_seconds := max_age_hours * 3600
      let sessions_to_delete := (st.sessions.filter fun p =>
        !p.2.is_connected &&
          decide (max_age_seconds < current_time - p.2.last_active)).map
        fun p => p.1
      let rec loop (st : SessionManager) :
          List String → LockOutcome SessionManager
        | [] => .ok st
        | sid :: sids =>
            match delete_session st sid with
            | .deadlock => .deadlock
            | .ok st => loop st sids
      match loop st sessions_to_delete with
      | .deadlock => .deadlock
      | .ok st => .ok (sm_release st)

/-! ## Terminal `cd` built-in
(`src/fsdp/test_payloads/fsdp_payload_enhanced.py`, `IsolatedTerminal`)

The operating system is an external collaborator; the parts `_handle_cd`
consults are a home directory, an existing-directory test and the
`os.path.abspath` normalization, gathered in `OsEnv`.  Paths follow the
POSIX shape the payload runs against. -/

/-- The OS facilities `_handle_cd` consults. -/
structure OsEnv where
  home : String
  is_dir : String → Bool
  abspath : String → String

/-- `os.path.isabs` for POSIX paths. -/
def path_is_abs (p : String) : Bool := p.startsWith "/"

/-- `os.path.join(a, b)` for the case `_handle_cd` reaches it (`b` is known
to be relative there). -/
def path_join (a b : String) : String := a ++ "/" ++ b

/-- The state of an `IsolatedTerminal` that `_handle_cd` can read or
write. -/
structure IsolatedTerminal where
  terminal_id : String
  created_at : Nat
  is_active : Bool := true
  command_history : List String := []
  current_dir : String
  env : List (String × String) := []
deriving DecidableEq, Repr

/-- The result dictionary returned by `_handle_cd`. -/
structure CdResult where
  output : String
  error : String
  exit_code : Int
  cwd : String
deriving DecidableEq, Repr

/-- The target directory `_handle_cd` resolves from its argument: `~`, the
empty string and `-` map to the home directory (no `abspath`), an absolute
path stands alone and a relative one is joined to the current directory,
both then normalized through `abspath`. -/
def cd_target (os : OsEnv) (current_dir path : String) : String :=
  if path == "~" || path == "" then os.home
  else if path == "-" then os.home
  else
    let target_dir :=
      if path_is_abs path then path else path_join current_dir path
    os.abspath target_dir

/-- `IsolatedTerminal._handle_cd`: resolves the target; if it is an existing
directory, moves there with exit code 0; otherwise reports
`Directory not found` with exit code 1 and leaves the terminal unchanged. -/
def handle_cd (os : OsEnv) (t : IsolatedTerminal) (path : String) :
    IsolatedTerminal × CdResult :=
  let target_dir := cd_target os t.current_dir path
  if os.is_dir target_dir then
    ({ t with current_dir := target_dir },
     { output := "", error := "", exit_code := 0, cwd := target_dir })
  else
    (t, { output := "", error := "Directory not found: " ++ path,
          exit_code := 1, cwd := t.current_dir })

/-! ## Specification-side definitions

These two definitions are transcribed from the specification's words, not
from the code, to be compared with the embedded code for the refinement
claims. -/

/-- Modelled from the spec: `transactions_for(X, 0)` is claimed to return
"exactly the set of transactions with `to ∈ {X, broadcast}` across all
blocks, in block-then-insertion order", each annotated with its block's
index; `wildcard` is the broadcast wildcard the spec names. -/
def spec_transactions_for (wildcard : String) (chain : List Block)
    (node : String) : List Tx :=
  chain.flatMap fun b =>
    match b.data with
    | .plain _ => []
    | .txs ts =>
        ((ts.filter fun t => t.to_ == node || t.to_ == wildcard).map
          fun t => { t with block_index := some b.index })

/-- Modelled from the spec: `receive_chunk` is claimed to write "the bytes
at the chunk's byte offset into the output file"; this is what a file of
contents `f` looks like after writing `d` at byte offset `off` (holes are
zero-filled, as an OS sparse write would). -/
def spec_write_at (f : List Nat) (off : Nat) (d : List Nat) : List Nat :=
  (f ++ List.replicate (off - f.length) 0).take off ++ d ++
    f.drop (off + d.length)

/-! ## Helper lemmas -/

/-- The block `get_transactions_for_node` leaves behind. -/
def deliver_block (node : String) (b : Block) : Block :=
  (Block.deliver node b).1

/-- The transactions one block contributes to the result of
`get_transactions_for_node`: those addressed to the node, annotated with
the block's index, in insertion order. -/
def delivered_of_block (node : String) (b : Block) : List Tx :=
  match b.data with
  | .plain _ => []
  | .txs ts =>
      (ts.filter fun t => t.to_ == node).map
        fun t => { t with block_index := some b.index }

lemma annotate_tx_to (node : String) (idx : Nat) (t : Tx) :
    (annotate_tx node idx t).to_ = t.to_ := by
  unfold annotate_tx; split <;> rfl

lemma filter_map_annotate (node : String) (idx : Nat) (ts : List Tx) :
    ((ts.map (annotate_tx node idx)).filter fun t => t.to_ == node) =
      ((ts.filter fun t => t.to_ == node).map
        fun t => { t with block_index := some idx }) := by
  induction ts with
  | nil => rfl
  | cons t ts ih =>
      by_cases h : t.to_ == node <;>
        simp [annotate_tx, h, List.filter_cons, ih]

lemma deliver_snd (node : String) (b : Block) :
    (Block.deliver node b).2 = delivered_of_block node b := by
  unfold Block.deliver delivered_of_block
  cases b.data <;> simp [filter_map_annotate]

lemma scan_blocks_fst (node : String) (bs : List Block) :
    (scan_blocks node bs).1 = bs.map (deliver_block node) := by
  induction bs with
  | nil => rfl
  | cons b bs ih => simp [scan_blocks, ih, deliver_block]

lemma scan_blocks_snd (node : String) (bs : List Block) :
    (scan_blocks node bs).2 = bs.flatMap (delivered_of_block node) := by
  induction bs with
  | nil => rfl
  | cons b bs ih => simp [scan_blocks, ih, deliver_snd]

lemma gtfn_snd (chain : List Block) (node : String) (s : Nat) :
    (get_transactions_for_node chain node s).2 =
      (chain.drop s).flatMap (delivered_of_block node) := by
  simp [get_transactions_for_node, scan_blocks_snd]

lemma gtfn_fst (chain : List Block) (node : String) (s : Nat) :
    (get_transactions_for_node chain node s).1 =
      chain.take s ++ (chain.drop s).map (deliver_block node) := by
  simp [get_transactions_for_node, scan_blocks_fst]

lemma gtfn_fst_length (chain : List Block) (node : String) (s : Nat) :
    (get_transactions_for_node chain node s).1.length = chain.length := by
  simp [gtfn_fst]
  omega

/-! ## Claim C1 -/

/-- A transaction addressed to the broadcast wildcard, sealed into block 1
of a two-block chain. -/
def c1_tx : Tx :=
  { ty := "response", from_ := "B", to_ := "broadcast", data := "d",
    timestamp := 3, message_id := "m1" }

/-- A chain whose block 1 holds only the broadcast-addressed `c1_tx`. -/
def c1_chain : List Block :=
  [genesis_block 1,
   Block.init 1 2 (.txs [c1_tx]) (genesis_block 1).hash "V"]

/-- C1 (counterexample): on a chain holding a transaction addressed to the
broadcast wildcard, `get_transactions_for_node("A", 0)` returns nothing —
the code matches `tx.get('to') == node_id` only and has no broadcast
handling — while the claimed result set contains that transaction. -/
theorem C1_broadcast_counterexample :
    (get_transactions_for_node c1_chain "A" 0).2 = [] ∧
    spec_transactions_for "broadcast" c1_chain "A" ≠ [] := by
  constructor
  · rfl
  · decide

/-- C1 (amended): `get_transactions_for_node(X, 0)` returns exactly the
transactions across all blocks whose `to` field equals `X` — transactions
addressed to any other destination, including a would-be broadcast
wildcard, are never returned — each annotated with its containing block's
index, ordered by block order and then intra-block insertion order. -/
theorem C1_delivery_exact (chain : List Block) (node : String) :
    (get_transactions_for_node chain node 0).2 =
      chain.flatMap (delivered_of_block node) := by
  simpa using gtfn_snd chain node 0

/-! ## Claim C5 -/

/-- C5: `sync_chain` reports success exactly when the rebuilt candidate is
strictly longer than the current chain, in which case the candidate (with
recomputed hashes) replaces the local chain; otherwise the local chain is
left unchanged.  No hypothesis about the candidate's validity appears:
replacement happens whether or not the rebuilt chain would pass
`is_chain_valid`. -/
theorem C5_sync_replacement (chain : List Block)
    (chain_data : List BlockWire) :
    ((sync_chain chain chain_data).2 = true ↔
      chain.length < chain_data.length) ∧
    (sync_chain chain chain_data).1 =
      (if chain.length < chain_data.length then rebuild_chain chain_data
       else chain) := by
  have hlen : (rebuild_chain chain_data).length = chain_data.length := by
    simp [rebuild_chain]
  simp only [sync_chain, hlen]
  split <;> simp_all

/-! ## Claim C6 -/

/-- C6: a node that is not flagged as validator, or whose id is outside the
authority set, gets no block from `create_block` and leaves the entire
blockchain state — chain and pending pool included — unchanged. -/
theorem C6_unauthorized_create_block (st : FSDPBlockchain) (now : Nat)
    (h : st.is_validator = false ∨ st.node_id ∉ st.validators) :
    create_block st now = (st, none) := by
  unfold create_block
  rcases h with h | h <;> simp [h]

/-- A non-validator node state used to witness C6. -/
def c6_state : FSDPBlockchain :=
  { chain := [genesis_block 1],
    pending_transactions := [c1_tx],
    node_id := "N",
    is_validator := false,
    validators := ["V"] }

/-- C6 witness: the concrete non-validator `c6_state` gets no block and is
left unchanged. -/
theorem C6_unauthorized_witness :
    create_block c6_state 7 = (c6_state, none) :=
  C6_unauthorized_create_block c6_state 7 (Or.inl rfl)

/-! ## Claim C9 -/

/-- C9: when the resolved target of the `cd` built-in is not an existing
directory, `_handle_cd` reports exit code 1 (non-zero) and leaves the
terminal — its `current_directory` in particular — unchanged. -/
theorem C9_cd_failure_frame (os : OsEnv) (t : IsolatedTerminal)
    (path : String)
    (h : os.is_dir (cd_target os t.current_dir path) = false) :
    (handle_cd os t path).1 = t ∧
    (handle_cd os t path).2.exit_code ≠ 0 ∧
    (handle_cd os t path).2.cwd = t.current_dir := by
  simp [handle_cd, h]

/-- An OS in which no directory exists, for the C9 witness. -/
def c9_os : OsEnv :=
  { home := "/root", is_dir := fun _ => false, abspath := fun s => s }

/-- A concrete terminal for the C9 witness. -/
def c9_terminal : IsolatedTerminal :=
  { terminal_id := "t1", created_at := 0, current_dir := "/home/u" }

/-- C9 witness: `cd missing` against `c9_os` fails with a non-zero exit
code and leaves the terminal's directory at `/home/u`. -/
theorem C9_cd_failure_witness :
    (handle_cd c9_os c9_terminal "missing").1 = c9_terminal ∧
    (handle_cd c9_os c9_terminal "missing").2.exit_code ≠ 0 ∧
    (handle_cd c9_os c9_terminal "missing").2.cwd =
      c9_terminal.current_dir :=
  C9_cd_failure_frame c9_os c9_terminal "missing" rfl

/-! ## Claim C10 -/

/-- C10: for a zero-byte source file, `prepare_upload` succeeds and creates
a transfer with `total_chunks = 0` and an empty chunk map, on which
`is_complete()` is already true while `get_progress()` is `0.0` — complete
without any chunk ever having been verified. -/
theorem C10_zero_byte_transfer (st : FileTransferManager) (fs : Files)
    (path tid sid : String) (now : Nat)
    (h : fs.lookup path = some []) :
    ∃ info, (prepare_upload st fs path tid sid now).2 = some info ∧
      info.total_chunks = 0 ∧ info.chunks = [] ∧
      info.is_complete = true ∧ info.get_progress = 0 := by
  unfold prepare_upload
  rw [h]
  exact ⟨_, rfl, rfl, rfl, rfl, rfl⟩

/-- C10 witness: a file system holding an empty file `f`. -/
theorem C10_zero_byte_witness :
    ∃ info,
      (prepare_upload ⟨[]⟩ [("f", [])] "f" "t1" "s1" 0).2 = some info ∧
      info.total_chunks = 0 ∧ info.chunks = [] ∧
      info.is_complete = true ∧ info.get_progress = 0 :=
  C10_zero_byte_transfer ⟨[]⟩ [("f", [])] "f" "t1" "s1" 0 rfl

/-! ## Claim C3 -/

lemma getD_eq_get {α : Type} (l : List α) (n : Nat) (d : α)
    (h : n < l.length) : l.getD n d = l.get ⟨n, h⟩ := by
  simp [List.getD_eq_getElem?_getD, List.getElem?_eq_getElem h]

/-- One failing consecutive pair makes the whole chain invalid. -/
lemma is_chain_valid_false_of_bad {validators : List String}
    {chain : List Block} {i : Nat} (h : i + 1 < chain.length)
    (hbad : blockOk validators (chain.get ⟨i, by omega⟩)
      (chain.get ⟨i + 1, h⟩) = false) :
    is_chain_valid validators chain = false := by
  unfold is_chain_valid
  rw [Bool.eq_false_iff]
  intro hall
  rw [List.all_eq_true] at hall
  have h0 : i < chain.length := by omega
  have hz : i < (chain.zip chain.tail).length := by
    simp [List.length_tail]
    omega
  have hpair : (chain.zip chain.tail).get ⟨i, hz⟩ =
      (chain.get ⟨i, h0⟩, chain.get ⟨i + 1, h⟩) := by
    simp [List.get_eq_getElem, List.getElem_zip, List.getElem_tail]
  have hmem := List.get_mem (chain.zip chain.tail) i hz
  rw [hpair] at hmem
  have := hall _ hmem
  simp only [hbad] at this
  exact Bool.false_ne_true this

/-- In a valid chain, every post-genesis block's stored hash equals its
recomputed hash. -/
lemma stored_hash_of_valid {validators : List String} {chain : List Block}
    {i : Nat} (h : i + 1 < chain.length)
    (hv : is_chain_valid validators chain = true) :
    (chain.get ⟨i + 1, h⟩).hash = (chain.get ⟨i + 1, h⟩).calculate_hash := by
  unfold is_chain_valid at hv
  rw [List.all_eq_true] at hv
  have h0 : i < chain.length := by omega
  have hz : i < (chain.zip chain.tail).length := by
    simp [List.length_tail]
    omega
  have hpair : (chain.zip chain.tail).get ⟨i, hz⟩ =
      (chain.get ⟨i, h0⟩, chain.get ⟨i + 1, h⟩) := by
    simp [List.get_eq_getElem, List.getElem_zip, List.getElem_tail]
  have hmem := List.get_mem (chain.zip chain.tail) i hz
  rw [hpair] at hmem
  have := hv _ hmem
  simp only [blockOk, Bool.and_eq_true, beq_iff_eq] at this
  exact this.1.1

/-- C3 (amended): in any valid chain, altering any stored field (index,
timestamp, data, previous_hash or validator) of any block *after genesis*
without recomputing its stored hash makes `is_chain_valid` return false:
the recomputed hash of the altered block no longer matches the stored
one. -/
theorem C3_tamper_detection (validators : List String) (chain : List Block)
    (i : Nat) (h2 : i + 1 < chain.length) (b' : Block)
    (h1 : is_chain_valid validators chain = true)
    (hfields : (b'.index, b'.timestamp, b'.data, b'.previous_hash,
        b'.validator) ≠
      ((chain.get ⟨i + 1, h2⟩).index, (chain.get ⟨i + 1, h2⟩).timestamp,
       (chain.get ⟨i + 1, h2⟩).data, (chain.get ⟨i + 1, h2⟩).previous_hash,
       (chain.get ⟨i + 1, h2⟩).validator))
    (hhash : b'.hash = (chain.get ⟨i + 1, h2⟩).hash) :
    is_chain_valid validators (chain.set (i + 1) b') = false := by
  have hceq := stored_hash_of_valid h2 h1
  have hne : b'.hash ≠ b'.calculate_hash := by
    rw [hhash, hceq]
    unfold Block.calculate_hash
    intro he
    injection he with e1 e2 e3 e4 e5
    apply hfields
    rw [Prod.mk.injEq, Prod.mk.injEq, Prod.mk.injEq, Prod.mk.injEq]
    exact ⟨e1.symm, e2.symm, e3.symm, e4.symm, e5.symm⟩
  have hlen : i + 1 < (chain.set (i + 1) b').length := by
    simpa using h2
  apply is_chain_valid_false_of_bad hlen
  have hcur : (chain.set (i + 1) b').get ⟨i + 1, hlen⟩ = b' := by
    simp [List.get_eq_getElem]
  rw [hcur]
  simp [blockOk, hne]

/-- The genesis block of the C3 counterexample chain. -/
def c3_genesis : Block := genesis_block 5

/-- The genesis block with its timestamp altered and the stored hash left
as it was. -/
def c3_tampered : Block := { c3_genesis with timestamp := 6 }

/-- C3 (counterexample): a single-block chain is valid; altering the
genesis block's timestamp without recomputing its stored hash leaves
`is_chain_valid` true — the validation loop starts at block 1 and never
recomputes the genesis hash, so the claim fails for genesis. -/
theorem C3_genesis_counterexample :
    is_chain_valid ["V"] [c3_genesis] = true ∧
    c3_tampered.timestamp ≠ c3_genesis.timestamp ∧
    c3_tampered.hash = c3_genesis.hash ∧
    is_chain_valid ["V"] [c3_tampered] = true :=
  ⟨rfl, by decide, rfl, rfl⟩

/-- Block 1 of the C3 witness chain. -/
def c3_b1 : Block := Block.init 1 2 (.txs []) (genesis_block 1).hash "V"

/-- Block 1 with its timestamp altered and its stored hash untouched. -/
def c3_b1_tampered : Block := { c3_b1 with timestamp := 9 }

/-- C3 witness: tampering with the post-genesis block of a concrete valid
two-block chain makes `is_chain_valid` false. -/
theorem C3_tamper_witness :
    is_chain_valid ["V"]
      ([genesis_block 1, c3_b1].set 1 c3_b1_tampered) = false :=
  C3_tamper_detection ["V"] [genesis_block 1, c3_b1] 0 (by decide)
    c3_b1_tampered (by decide) (by decide) (by decide)

/-! ## Claim C4 -/

lemma map_ne_self_of_mem {α : Type} {f : α → α} {l : List α} {x : α}
    (hx : x ∈ l) (hf : f x ≠ x) : l.map f ≠ l := by
  intro he
  obtain ⟨n, hn, hnx⟩ := List.mem_iff_getElem.mp hx
  apply hf
  have hlen : n < (l.map f).length := by simpa using hn
  have hc : (l.map f).getD n x = l.getD n x := by rw [he]
  rw [getD_eq_get _ _ _ hlen, getD_eq_get _ _ _ hn] at hc
  simp only [List.get_eq_getElem, List.getElem_map] at hc
  rw [hnx] at hc
  exact hc

/-- The block a `get_transactions_for_node` call leaves at a scanned
position: the original block with its matching transactions annotated. -/
lemma gtfn_fst_getD (chain : List Block) (node : String) (s i : Nat)
    (hi : i < chain.length) (hs : s ≤ i) :
    (get_transactions_for_node chain node s).1.getD i (genesis_block 0) =
      deliver_block node (chain.get ⟨i, hi⟩) := by
  rw [gtfn_fst]
  simp only [List.getD_eq_getElem?_getD, List.getElem?_append_right
    (by simp; omega : (chain.take s).length ≤ i)]
  rw [List.getElem?_map]
  have hts : (chain.take s).length = s := by simp; omega
  rw [hts, List.getElem?_drop]
  have hsi : s + (i - s) = i := by omega
  rw [hsi, List.getElem?_eq_getElem hi]
  simp [List.get_eq_getElem]

lemma annotate_ne_of_fresh {node : String} {idx : Nat} {t : Tx}
    (hto : t.to_ = node) (hidx : t.block_index ≠ some idx) :
    annotate_tx node idx t ≠ t := by
  unfold annotate_tx
  rw [if_pos (by simp [hto])]
  intro he
  apply hidx
  have := congrArg Tx.block_index he
  simpa using this.symm

/-- C4: `get_transactions_for_node` is not read-only.  For any chain state
whose block at position `i ≥ 1` stores its correct hash and contains a
transaction addressed to `node` not already carrying that block's index
annotation, a call with `since_block ≤ i` leaves the block's stored hash
different from its recomputed hash — the annotation mutated the
transaction dictionary held inside the block — and a subsequent
`is_chain_valid` returns false. -/
theorem C4_annotation_invalidates_chain (chain : List Block) (node : String)
    (validators : List String) (s i : Nat)
    (hi : i < chain.length) (hpos : 1 ≤ i) (hs : s ≤ i)
    (ts : List Tx) (hdata : (chain.get ⟨i, hi⟩).data = .txs ts)
    (hhash : (chain.get ⟨i, hi⟩).hash =
      (chain.get ⟨i, hi⟩).calculate_hash)
    (t : Tx) (ht : t ∈ ts) (hto : t.to_ = node)
    (hidx : t.block_index ≠ some (chain.get ⟨i, hi⟩).index) :
    ((get_transactions_for_node chain node s).1.getD i
        (genesis_block 0)).hash ≠
      ((get_transactions_for_node chain node s).1.getD i
        (genesis_block 0)).calculate_hash ∧
    is_chain_valid validators (get_transactions_for_node chain node s).1 =
      false := by
  obtain ⟨j, rfl⟩ : ∃ j, i = j + 1 := ⟨i - 1, by omega⟩
  set c := chain.get ⟨j + 1, hi⟩ with hc
  have hne_ts : ts.map (annotate_tx node c.index) ≠ ts :=
    map_ne_self_of_mem ht (annotate_ne_of_fresh hto hidx)
  have hdb : deliver_block node c =
      { c with data := .txs (ts.map (annotate_tx node c.index)) } := by
    unfold deliver_block Block.deliver
    rw [hdata]
  have hmismatch : (deliver_block node c).hash ≠
      (deliver_block node c).calculate_hash := by
    rw [hdb]
    unfold Block.calculate_hash
    simp only []
    rw [hhash]
    unfold Block.calculate_hash
    rw [hdata]
    intro he
    injection he with e1 e2 e3 e4 e5
    exact hne_ts (by injection e3 with e6; exact e6.symm)
  have hgetd := gtfn_fst_getD chain node s (j + 1) hi hs
  constructor
  · rw [hgetd]
    exact hmismatch
  · have hlen : j + 1 <
        (get_transactions_for_node chain node s).1.length := by
      rw [gtfn_fst_length]
      exact hi
    apply is_chain_valid_false_of_bad hlen
    have hcur : (get_transactions_for_node chain node s).1.get
        ⟨j + 1, hlen⟩ = deliver_block node c := by
      rw [← hgetd, getD_eq_get _ _ _ hlen]
    rw [hcur]
    simp [blockOk, hmismatch]

/-- A transaction addressed to node `A`, sealed into block 1 of the witness
chain for C4. -/
def c4_tx : Tx :=
  { ty := "terminal_command", from_ := "adm", to_ := "A", data := "cmd",
    timestamp := 3, message_id := "m2" }

/-- A two-block chain whose block 1 holds `c4_tx`. -/
def c4_chain : List Block :=
  [genesis_block 1,
   Block.init 1 2 (.txs [c4_tx]) (genesis_block 1).hash "V"]

/-- C4 witness: retrieving node A's messages from the concrete chain
`c4_chain` leaves block 1 with a stored hash that no longer matches its
recomputed hash, and `is_chain_valid` subsequently reports false. -/
theorem C4_annotation_witness :
    ((get_transactions_for_node c4_chain "A" 0).1.getD 1
        (genesis_block 0)).hash ≠
      ((get_transactions_for_node c4_chain "A" 0).1.getD 1
        (genesis_block 0)).calculate_hash ∧
    is_chain_valid ["V"] (get_transactions_for_node c4_chain "A" 0).1 =
      false :=
  C4_annotation_invalidates_chain c4_chain "A" ["V"] 0 1 (by decide)
    (by decide) (by decide) [c4_tx] rfl rfl c4_tx (by decide) rfl (by decide)

/-! ## Claim C7 -/

lemma mem_delivered {node : String} {b : Block} {t : Tx}
    (h : t ∈ delivered_of_block node b) :
    t.to_ = node ∧ t.block_index = some b.index := by
  obtain ⟨bi, bt, bd, bp, bv, bh⟩ := b
  cases bd with
  | plain m => simp [delivered_of_block] at h
  | txs ts =>
      simp only [delivered_of_block, List.mem_map, List.mem_filter] at h
      obtain ⟨t0, ⟨ht0, hto⟩, rfl⟩ := h
      exact ⟨by simpa using hto, rfl⟩

lemma annotate_tx_idem (node : String) (idx : Nat) (t : Tx) :
    annotate_tx node idx (annotate_tx node idx t) =
      annotate_tx node idx t := by
  obtain ⟨a1, a2, a3, a4, a5, a6, a7⟩ := t
  by_cases h : a3 == node <;> simp [annotate_tx, h]

lemma deliver_block_idem (node : String) (b : Block) :
    Block.deliver node (deliver_block node b) = Block.deliver node b := by
  obtain ⟨bi, bt, bd, bp, bv, bh⟩ := b
  cases bd with
  | plain m => rfl
  | txs ts =>
      simp only [deliver_block, Block.deliver]
      have hmm : List.map (annotate_tx node bi ∘ annotate_tx node bi) ts =
          List.map (annotate_tx node bi) ts :=
        List.map_congr_left fun a _ => annotate_tx_idem node bi a
      simp [List.map_map, hmm]

/-- C7: delivery is at-least-once.  For a position-indexed chain, any
transaction `t` the listener retrieves whose block index equals the
advanced `last_processed_block` counter — i.e. any message of the
highest-indexed block observed — is retrieved again by the next polling
iteration (which queries from the updated counter over the chain state the
first call left behind), so its handlers fire again as long as no
higher-indexed block containing a message for the node has appeared. -/
theorem C7_at_least_once_redelivery (chain : List Block) (node : String)
    (s : Nat) (t : Tx) (hIdx : chain_indexed chain)
    (h1 : t ∈ (get_transactions_for_node chain node s).2)
    (h2 : t.block_index =
      some (observed_last s (get_transactions_for_node chain node s).2)) :
    t ∈ (get_transactions_for_node
          (get_transactions_for_node chain node s).1 node
          (observed_last s (get_transactions_for_node chain node s).2)).2
    := by
  rw [gtfn_snd] at h1
  rw [List.mem_flatMap] at h1
  obtain ⟨b, hb, htb⟩ := h1
  obtain ⟨k, hk, hbk⟩ := List.mem_iff_getElem.mp hb
  have hk' : s + k < chain.length := by
    rw [List.length_drop] at hk
    omega
  have hbchain : b = chain.get ⟨s + k, hk'⟩ := by
    rw [← hbk]
    simp [List.get_eq_getElem, List.getElem_drop]
  have hbi : b.index = s + k := by
    rw [hbchain]
    exact hIdx (s + k) hk'
  have hmt := mem_delivered htb
  have hmk : observed_last s (get_transactions_for_node chain node s).2 =
      s + k := by
    have h3 := h2.symm.trans hmt.2
    injection h3 with hv
    rw [hv, hbi]
  rw [hmk]
  rw [gtfn_snd, List.mem_flatMap]
  refine ⟨deliver_block node b, ?_, ?_⟩
  · have hlen' := gtfn_fst_length chain node s
    have hM : s + k < (get_transactions_for_node chain node s).1.length := by
      rw [hlen']
      exact hk'
    rw [List.drop_eq_getElem_cons hM]
    have hhead : (get_transactions_for_node chain node s).1[s + k] =
        deliver_block node b := by
      have hgd := gtfn_fst_getD chain node s (s + k) hk' (by omega)
      rw [getD_eq_get _ _ _ hM] at hgd
      simp only [List.get_eq_getElem] at hgd
      rw [hgd, hbchain]
      simp [List.get_eq_getElem]
    rw [hhead]
    exact List.mem_cons_self _ _
  · have hidem : delivered_of_block node (deliver_block node b) =
        delivered_of_block node b := by
      rw [← deliver_snd, deliver_block_idem, deliver_snd]
    rw [hidem]
    exact htb

/-- A transaction addressed to node `A`, used by the C7 witness. -/
def c7_tx : Tx :=
  { ty := "response", from_ := "tgt", to_ := "A", data := "out",
    timestamp := 4, message_id := "m3" }

/-- A two-block chain whose block 1 holds `c7_tx`. -/
def c7_chain : List Block :=
  [genesis_block 1,
   Block.init 1 2 (.txs [c7_tx]) (genesis_block 1).hash "V"]

/-- C7 witness: on the concrete chain `c7_chain`, the annotated `c7_tx` is
delivered again by the follow-up poll issued from the advanced counter. -/
theorem C7_redelivery_witness :
    ({ c7_tx with block_index := some 1 }) ∈
      (get_transactions_for_node
        (get_transactions_for_node c7_chain "A" 0).1 "A"
        (observed_last 0 (get_transactions_for_node c7_chain "A" 0).2)).2 :=
  C7_at_least_once_redelivery c7_chain "A" 0
    ({ c7_tx with block_index := some 1 })
    (by
      intro j h
      have h2 : j < 2 := by simpa [c7_chain] using h
      interval_cases j <;> rfl)
    (by decide) (by decide)

/-! ## Claim C2 -/

/-- The chunk-0 plan entry of the C2 transfer (never received here). -/
def c2_chunk0 : ChunkInfo :=
  { chunk_index := 0, chunk_hash := .mk [9], chunk_size := CHUNK_SIZE }

/-- The chunk-1 plan entry of the C2 transfer: bytes `[1, 2, 3]`. -/
def c2_chunk1 : ChunkInfo :=
  { chunk_index := 1, chunk_hash := .mk [1, 2, 3], chunk_size := 3 }

/-- A two-chunk in-progress download used as the C2 failing input. -/
def c2_transfer : FileTransferInfo :=
  { transfer_id := "t", file_name := "f", file_path := "f",
    file_size := CHUNK_SIZE + 3, total_chunks := 2,
    chunks := [(0, c2_chunk0), (1, c2_chunk1)],
    status := .in_progress, created_at := 0,
    file_hash := some (.mk [9, 1, 2, 3]), direction := "download",
    session_id := some "s" }

/-- The manager holding the C2 transfer. -/
def c2_manager : FileTransferManager := ⟨[("t", c2_transfer)]⟩

/-- C2: on a hash mismatch `receive_chunk` fails and touches neither the
file system nor the manager (first conjunct — this half of the claim holds);
but on a hash match for chunk index 1 arriving at an empty output file, the
bytes are *appended* at offset 0 — the `'ab'` open mode makes the
`f.seek(chunk_index * CHUNK_SIZE)` ineffective — even though the chunk is
duly marked verified; the resulting file differs from the claimed
write-at-offset `1 * CHUNK_SIZE` result. -/
theorem C2_receive_chunk_divergence :
    receive_chunk c2_manager [] "t" 1 [1, 2, 9] (.mk [1, 2, 3]) "out" 5 =
      (c2_manager, [], false) ∧
    ((receive_chunk c2_manager [] "t" 1 [1, 2, 3] (.mk [1, 2, 3]) "out"
        5).2.1).lookup "out" = some [1, 2, 3] ∧
    (((receive_chunk c2_manager [] "t" 1 [1, 2, 3] (.mk [1, 2, 3]) "out"
          5).1.transfers.lookup "t").map
        fun info => (info.chunks.lookup 1).map fun ci => ci.is_verified) =
      some (some true) ∧
    [1, 2, 3] ≠ spec_write_at [] (1 * CHUNK_SIZE) [1, 2, 3] := by
  refine ⟨rfl, rfl, rfl, ?_⟩
  have hL : ∀ C : Nat, (spec_write_at [] (1 * C) [1, 2, 3]).length =
      C + 3 := by
    intro C
    simp only [spec_write_at, one_mul, List.nil_append, List.drop_nil,
      List.length_append, List.length_take, List.length_replicate,
      List.length_cons, List.length_nil, Nat.sub_zero]
    omega
  intro hcontra
  have hlen := congrArg List.length hcontra
  rw [hL CHUNK_SIZE] at hlen
  simp only [List.length_cons, List.length_nil] at hlen
  have h0 : CHUNK_SIZE = 0 := by omega
  exact absurd h0 (by decide)

/-! ## Claim C8 -/

/-- A disconnected session last active at time 0. -/
def c8_session : SessionState :=
  { session_id := "s1", admin_id := "adm", target_id := "tgt",
    created_at := 0, last_active := 0, is_connected := false }

/-- A session manager holding only `c8_session`, lock free. -/
def c8_manager : SessionManager :=
  { sessions := [("s1", c8_session)], storage := [("s1", c8_session)] }

/-- C8: `c8_session` is disconnected and idle far beyond the 24-hour
default, so the claim says `cleanup_old_sessions` deletes it; instead the
call deadlocks — `cleanup_old_sessions` holds the manager's non-reentrant
lock while invoking `delete_session`, which tries to take the same lock —
and no session is ever deleted. -/
theorem C8_cleanup_deadlock :
    (!c8_session.is_connected) = true ∧
    ((24 : Int) * 3600) < (100000 : Int) - c8_session.last_active ∧
    cleanup_old_sessions c8_manager 100000 24 = .deadlock :=
  ⟨rfl, by decide, rfl⟩
